import Mathlib

/-!
Verification development for the hypothesis-based global optimiser of
BayesianTracker (`btrack/optimise/optimiser.py`, class `TrackOptimiser`).

The embedding below follows `TrackOptimiser.optimise` line by line:

* hypotheses are records carrying a subject track ID, a type code, a
  log-likelihood and the auxiliary references used by LINK / DIVIDE / MERGE;
* the constraint matrix `A` is a cvxopt-style sparse matrix, modelled as the
  list of performed assignments (an assignment prepends a triplet; the entry
  of the matrix at a position is the value of the most recent assignment
  there, zero if none).  An assignment with a row index outside
  `[-nrows, nrows)` fails like a cvxopt `IndexError`; a negative in-range
  index wraps around, Python style;
* the build loop walks the hypothesis list with a counter, records the
  log-likelihood in `rho` and performs the per-type assignments; an
  unrecognised type code fails like the `raise ValueError` in the source;
* the assembled integer linear program is handed to a solver
  (`cvxopt.glpk.ilp` in the source, abstracted as a function argument here);
  a status other than "optimal" yields a warning and an empty selection,
  otherwise the indices with a strictly positive solution value are returned.

Real-valued scores are modelled as rationals.  Log emission is modelled by
returning the list of emitted records next to the result (records emitted
before an exception escapes are not tracked, no claim depends on them).
-/

/-- Type codes of the hypotheses recognised by the optimiser
(`btrack.constants.Fates`).  The source compares `h.type` against the seven
constants used by the dispatch in `optimise`; the constructor `UNKNOWN`
stands for every other type code, which the dispatch rejects.  The source
spells the second constructor INITIALIZE. -/
inductive Fates where
  | FALSE_POSITIVE
  | INITIALISE
  | TERMINATE
  | APOPTOSIS
  | LINK
  | DIVIDE
  | MERGE
  | UNKNOWN
  deriving DecidableEq, Repr

/-- A candidate hypothesis handed to `TrackOptimiser` (the fields of a
`PyHypothesis` object read by `optimise`).  Auxiliary references default to
zero; only the fields selected by `type` are ever read. -/
structure PyHypothesis where
  ID : Nat
  type : Fates
  log_likelihood : ℚ
  link_ID : Nat := 0
  child_one_ID : Nat := 0
  child_two_ID : Nat := 0
  parent_one_ID : Nat := 0
  parent_two_ID : Nat := 0
  deriving DecidableEq, Repr

/-- Failure modes of the constraint-building phase of `optimise`:
`emptyPool` is the ValueError raised by Python max() on an empty sequence,
`unknownType` is the explicit ValueError raised for an unrecognised type
code, and `indexOutOfRange` is the IndexError raised by a cvxopt sparse
matrix assignment whose index falls outside the matrix. -/
inductive BuildError where
  | emptyPool
  | unknownType
  | indexOutOfRange
  deriving DecidableEq, Repr

/-- Model of a cvxopt sparse matrix (`spmatrix`): its dimensions and the list
of assignments performed on it, most recent first. -/
structure SpMat where
  nrows : Nat
  ncols : Nat
  entries : List (Nat × Nat × ℚ)
  deriving DecidableEq, Repr

/-- Value of the sparse matrix at `(i, j)`: the most recent assignment at
that position, or zero when no assignment touched it. -/
def SpMat.entry (M : SpMat) (i j : Nat) : ℚ :=
  match M.entries.find? (fun e => e.1 == i && e.2.1 == j) with
  | some e => e.2.2
  | none => 0

/-- Model of the cvxopt assignment statement, as in the source lines of the
form A[row, counter] = 1.  Python indexing contributes the two boundary
behaviours: a negative index in `[-nrows, 0)` counts from the end, an index
outside `[-nrows, nrows)` (or a column outside the matrix) raises
IndexError. -/
def SpMat.setEntry (M : SpMat) (i : Int) (j : Nat) (v : ℚ) : Except BuildError SpMat :=
  if 0 ≤ i ∧ i < (M.nrows : Int) ∧ j < M.ncols then
    .ok { M with entries := (i.toNat, j, v) :: M.entries }
  else if -(M.nrows : Int) ≤ i ∧ i < 0 ∧ j < M.ncols then
    .ok { M with entries := ((i + (M.nrows : Int)).toNat, j, v) :: M.entries }
  else
    .error .indexOutOfRange

/-- Negation of a sparse matrix (the source passes -G to the solver). -/
def SpMat.neg (M : SpMat) : SpMat :=
  { M with entries := M.entries.map (fun e => (e.1, e.2.1, -e.2.2)) }

/-- Renumbering of a track ID from the engine, the anonymous function
trk_idx of the source: IDs are 1-based, matrix rows 0-based. -/
def trk_idx (id : Nat) : Int := (id : Int) - 1

/-- Row indices assigned the value 1 in the constraint-matrix column of one
hypothesis, in the order the source performs the assignments; `none` for an
unrecognised type code (the source raises ValueError there). -/
def hypothesisRows (N : Nat) (h : PyHypothesis) : Option (List Int) :=
  match h.type with
  | Fates.FALSE_POSITIVE =>
      some [trk_idx h.ID, (N : Int) + trk_idx h.ID]
  | Fates.INITIALISE =>
      some [(N : Int) + trk_idx h.ID]
  | Fates.TERMINATE =>
      some [trk_idx h.ID]
  | Fates.APOPTOSIS =>
      some [trk_idx h.ID]
  | Fates.LINK =>
      some [trk_idx h.ID, (N : Int) + trk_idx h.link_ID]
  | Fates.DIVIDE =>
      some [trk_idx h.ID, (N : Int) + trk_idx h.child_one_ID,
        (N : Int) + trk_idx h.child_two_ID]
  | Fates.MERGE =>
      some [(N : Int) + trk_idx h.ID, trk_idx h.parent_one_ID,
        trk_idx h.parent_two_ID]
  | Fates.UNKNOWN => none

/-- One hypothesis worth of assignments into column `j` of the constraint
matrix. -/
def applyRows (j : Nat) (A : SpMat) : List Int → Except BuildError SpMat
  | [] => .ok A
  | r :: rest =>
    match A.setEntry r j 1 with
    | .error e => .error e
    | .ok A1 => applyRows j A1 rest

/-- The constraint-building loop of `optimise`: walk the hypothesis list
with a counter, record the log-likelihood in `rho` and perform the per-type
assignments into column `counter` of `A`. -/
def buildLoop (N : Nat) (counter : Nat) (A : SpMat) (rho : List ℚ) :
    List PyHypothesis → Except BuildError (SpMat × List ℚ)
  | [] => .ok (A, rho)
  | h :: rest =>
    let rho1 := rho.set counter h.log_likelihood
    match hypothesisRows N h with
    | none => .error .unknownType
    | some rows =>
      match applyRows counter A rows with
      | .error e => .error e
      | .ok A1 => buildLoop N (counter + 1) A1 rho1 rest

/-- The quantity N of the source: max(set(int(h.ID) for h in hypotheses)).
Python max raises on an empty pool, which the caller of this definition
checks separately. -/
def poolN (hypotheses : List PyHypothesis) : Nat :=
  (hypotheses.map (fun h => h.ID)).foldr max 0

/-- Result of the constraint-building phase of `optimise`. -/
structure BuiltProblem where
  N : Nat
  n_hypotheses : Nat
  A : SpMat
  rho : List ℚ
  deriving DecidableEq, Repr

/-- Constraint-building phase of `optimise`: compute `n_hypotheses` and `N`,
allocate the sparse `(2N, n)` matrix `A` and the dense score vector `rho`,
and run the loop over the hypotheses. -/
def buildConstraints (hypotheses : List PyHypothesis) : Except BuildError BuiltProblem :=
  if hypotheses.isEmpty then .error .emptyPool
  else
    let n := hypotheses.length
    let N := poolN hypotheses
    match buildLoop N 0 (SpMat.mk (2 * N) n []) (List.replicate n 0) hypotheses with
    | .error e => .error e
    | .ok (A, rho) => .ok (BuiltProblem.mk N n A rho)

/-- Arguments handed to cvxopt.glpk.ilp by `optimise`, in the order
c, G, h, A, b, I, B of the source call. -/
structure ILPInput where
  c : List ℚ
  G : SpMat
  hvec : List ℚ
  A : SpMat
  b : List ℚ
  I : Finset Nat
  B : Finset Nat

/-- Assembly of the solver arguments from the built problem, following the
source: c = -rho, the inequality block is a negated all-zero sparse
matrix with right-hand side h = 0, b = 1, I = empty set,
B = set(range(n_hypotheses)). -/
def assembleILP (p : BuiltProblem) : ILPInput :=
  let G : SpMat := SpMat.mk (2 * p.N) p.n_hypotheses []
  { c := p.rho.map (fun r => -r)
    G := G.neg
    hvec := List.replicate (2 * p.N) 0
    A := p.A
    b := List.replicate (2 * p.N) 1
    I := ∅
    B := Finset.range p.n_hypotheses }

/-- Severity of an emitted log record. -/
inductive LogLevel where
  | info
  | warning
  deriving DecidableEq, Repr

/-- The two informational records emitted by `optimise` before the solver
returns. -/
def setupLogs : List (LogLevel × String) :=
  [(LogLevel.info, "Setting up constraints matrix for global optimisation..."),
   (LogLevel.info, "Optimising...")]

/-- The method `TrackOptimiser.optimise`, with the external GLPK binding
abstracted as the function argument `solver` returning the (status, x) pair
of cvxopt.glpk.ilp.  Returns the selected hypothesis indices together with
the emitted log records, or the exception that escaped the build phase. -/
def optimise (solver : ILPInput → String × List ℚ) (hypotheses : List PyHypothesis) :
    Except BuildError (List Nat × List (LogLevel × String)) :=
  match buildConstraints hypotheses with
  | .error e => .error e
  | .ok p =>
    let status := (solver (assembleILP p)).1
    let x := (solver (assembleILP p)).2
    if status ≠ "optimal" then
      .ok ([], setupLogs ++ [(LogLevel.warning, "Optimizer returned status: " ++ status)])
    else
      .ok ((List.range hypotheses.length).filter (fun i => decide (0 < x.getD i 0)),
        setupLogs ++ [(LogLevel.info, "Optimisation complete. (Solution: " ++ status ++ ")")])

/-- Value of the decision variable `j` under a candidate binary selection
(one Bool per hypothesis; positions beyond the list count as zero). -/
def selVal (sel : List Bool) (j : Nat) : ℚ :=
  if sel.getD j false then 1 else 0

/-- Dot product of a dense vector with a binary selection. -/
def dotProd (v : List ℚ) (sel : List Bool) : ℚ :=
  ((List.range v.length).map (fun j => v.getD j 0 * selVal sel j)).sum

/-- Dot product of row `i` of a sparse matrix with a binary selection. -/
def rowDot (M : SpMat) (i : Nat) (sel : List Bool) : ℚ :=
  ((List.range M.ncols).map (fun j => M.entry i j * selVal sel j)).sum

/-- Feasibility of a binary selection for the handed program: every row of
the equality block satisfies A x = b and every row of the inequality block
satisfies G x <= h. -/
def checkFeasible (inp : ILPInput) (sel : List Bool) : Bool :=
  ((List.range inp.A.nrows).all (fun i => rowDot inp.A i sel == inp.b.getD i 0)) &&
  ((List.range inp.G.nrows).all (fun i => decide (rowDot inp.G i sel ≤ inp.hvec.getD i 0)))

/-- Every vector of `n` binary decision variables. -/
def allBinaryVectors : Nat → List (List Bool)
  | 0 => [[]]
  | n + 1 => (allBinaryVectors n).flatMap (fun s => [false :: s, true :: s])

/-- The feasible binary selections of the handed program. -/
def feasibleSelections (inp : ILPInput) : List (List Bool) :=
  (allBinaryVectors inp.A.ncols).filter (fun sel => checkFeasible inp sel)

/-- Objective value c . x of a binary selection. -/
def objective (inp : ILPInput) (sel : List Bool) : ℚ :=
  dotProd inp.c sel

/-- Modelled from the spec: the external binary-integer-program solver
(cvxopt.glpk.ilp backed by GLPK, outside this repository).  Per the solver
adapter contract, it returns the status string "optimal" together with a
minimising feasible binary solution vector, or a non-optimal status (here
the cvxopt status "primal infeasible") when no feasible solution exists.
This reference model solves by exhaustive enumeration, which is exact on
the all-binary programs the optimiser produces. -/
def exactSolver (inp : ILPInput) : String × List ℚ :=
  match (feasibleSelections inp).argmin (objective inp) with
  | some sel => ("optimal", (List.range inp.A.ncols).map (fun j => selVal sel j))
  | none => ("primal infeasible", [])

/-- Correctness of an abstract solver on all-binary programs: on status
"optimal" the returned vector realises a feasible binary selection of
minimal objective value, and a non-optimal status is returned only when no
feasible binary selection exists. -/
def SolverCorrect (solver : ILPInput → String × List ℚ) : Prop :=
  ∀ inp : ILPInput,
    ((solver inp).1 = "optimal" →
      ∃ sel ∈ feasibleSelections inp,
        (solver inp).2 = (List.range inp.A.ncols).map (fun j => selVal sel j) ∧
        ∀ sel2 ∈ feasibleSelections inp, objective inp sel ≤ objective inp sel2) ∧
    ((solver inp).1 ≠ "optimal" → feasibleSelections inp = [])

/-- Nonzero row positions that the table in section 4.2 of the spec
prescribes for the constraint-matrix column of one hypothesis, with
t = id - 1 (transcribed from the spec, for comparison with the source
encoding `hypothesisRows`). -/
def specTableRows (N : Nat) (h : PyHypothesis) : List Nat :=
  match h.type with
  | Fates.FALSE_POSITIVE => [h.ID - 1, N + (h.ID - 1)]
  | Fates.INITIALISE => [N + (h.ID - 1)]
  | Fates.TERMINATE => [h.ID - 1]
  | Fates.APOPTOSIS => [h.ID - 1]
  | Fates.LINK => [h.ID - 1, N + (h.link_ID - 1)]
  | Fates.DIVIDE => [h.ID - 1, N + (h.child_one_ID - 1), N + (h.child_two_ID - 1)]
  | Fates.MERGE => [N + (h.ID - 1), h.parent_one_ID - 1, h.parent_two_ID - 1]
  | Fates.UNKNOWN => []

/-- Well-formedness of the identifier fields a hypothesis actually uses:
the subject ID, and the auxiliary references its type reads, are 1-based
(positive). -/
def wellFormedIDs (h : PyHypothesis) : Bool :=
  1 ≤ h.ID &&
  (match h.type with
   | Fates.LINK => 1 ≤ h.link_ID
   | Fates.DIVIDE => 1 ≤ h.child_one_ID && 1 ≤ h.child_two_ID
   | Fates.MERGE => 1 ≤ h.parent_one_ID && 1 ≤ h.parent_two_ID
   | _ => true)

/-- All row indices a hypothesis assigns are inside `[0, twoN)`. -/
def rowsInRange (N twoN : Nat) (h : PyHypothesis) : Bool :=
  match hypothesisRows N h with
  | none => true
  | some rows => rows.all (fun r => 0 ≤ r && r < (twoN : Int))

/-- A LINK, DIVIDE or MERGE hypothesis one of whose auxiliary references
exceeds `N`, so that its head-slot row N + ref - 1 falls at or beyond row
2N. -/
def badAuxRef (N : Nat) (h : PyHypothesis) : Bool :=
  match h.type with
  | Fates.LINK => N < h.link_ID
  | Fates.DIVIDE => N < h.child_one_ID || N < h.child_two_ID
  | Fates.MERGE => N < h.parent_one_ID || N < h.parent_two_ID
  | _ => false

/-- Row index actually stored by a successful cvxopt assignment: negative
in-range indices count from the end. -/
def normRow (nrows : Nat) (r : Int) : Nat :=
  if r < 0 then (r + (nrows : Int)).toNat else r.toNat

theorem SpMat.entry_nil (nr nc i j : Nat) : (SpMat.mk nr nc []).entry i j = 0 := rfl

theorem SpMat.entry_push (M : SpMat) (i j : Nat) (v : ℚ) (i' j' : Nat) :
    SpMat.entry { M with entries := (i, j, v) :: M.entries } i' j' =
      if i' = i ∧ j' = j then v else M.entry i' j' := by
  by_cases hij : i' = i ∧ j' = j
  · obtain ⟨hi, hj⟩ := hij
    subst hi; subst hj
    simp [SpMat.entry, List.find?]
  · rw [if_neg hij]
    have hpred : ((i, j, v).1 == i' && (i, j, v).2.1 == j') = false := by
      rcases Decidable.not_and_iff_or_not.mp hij with hi | hj
      · simp [beq_iff_eq]
        intro hcontra
        exact absurd hcontra.symm hi
      · simp [beq_iff_eq]
        intro
        intro hcontra
        exact absurd hcontra.symm hj
    simp [SpMat.entry, List.find?, hpred]

theorem setEntry_ok_spec {M : SpMat} {i : Int} {j : Nat} {v : ℚ} {M' : SpMat}
    (hs : M.setEntry i j v = .ok M') :
    M'.nrows = M.nrows ∧ M'.ncols = M.ncols ∧
    M'.entries = (normRow M.nrows i, j, v) :: M.entries ∧
    -(M.nrows : Int) ≤ i ∧ i < (M.nrows : Int) ∧ j < M.ncols := by
  unfold SpMat.setEntry at hs
  split at hs
  · rename_i hc
    obtain ⟨h0, h1, h2⟩ := hc
    injection hs with hs
    subst hs
    refine ⟨rfl, rfl, ?_, by omega, h1, h2⟩
    have : normRow M.nrows i = i.toNat := by
      unfold normRow
      rw [if_neg (by omega)]
    rw [this]
  · split at hs
    · rename_i hc
      obtain ⟨h0, h1, h2⟩ := hc
      injection hs with hs
      subst hs
      refine ⟨rfl, rfl, ?_, h0, by omega, h2⟩
      have : normRow M.nrows i = (i + (M.nrows : Int)).toNat := by
        unfold normRow
        rw [if_pos h1]
      rw [this]
    · exact absurd hs (by simp)

theorem setEntry_ok_of_bounds {M : SpMat} {i : Int} {j : Nat} (v : ℚ)
    (hlo : -(M.nrows : Int) ≤ i) (hhi : i < (M.nrows : Int)) (hj : j < M.ncols) :
    ∃ M', M.setEntry i j v = .ok M' := by
  unfold SpMat.setEntry
  by_cases h0 : 0 ≤ i
  · exact ⟨_, by rw [if_pos ⟨h0, hhi, hj⟩]⟩
  · refine ⟨{ M with entries := ((i + (M.nrows : Int)).toNat, j, v) :: M.entries }, ?_⟩
    rw [if_neg (by omega), if_pos ⟨hlo, by omega, hj⟩]

theorem setEntry_error_of_bad {M : SpMat} {i : Int} {j : Nat} (v : ℚ)
    (hbad : i < -(M.nrows : Int) ∨ (M.nrows : Int) ≤ i ∨ M.ncols ≤ j) :
    M.setEntry i j v = .error .indexOutOfRange := by
  unfold SpMat.setEntry
  rw [if_neg (by omega), if_neg (by omega)]

theorem normRow_lt {nrows : Nat} {r : Int} (hlo : -(nrows : Int) ≤ r) (hhi : r < (nrows : Int)) :
    normRow nrows r < nrows := by
  unfold normRow
  split <;> omega

theorem applyRows_ok_spec {j : Nat} :
    ∀ {rows : List Int} {A A' : SpMat}, applyRows j A rows = .ok A' →
      A'.nrows = A.nrows ∧ A'.ncols = A.ncols ∧
      (∀ r ∈ rows, -(A.nrows : Int) ≤ r ∧ r < (A.nrows : Int) ∧ j < A.ncols) ∧
      (∀ i' j', A'.entry i' j' =
        if j' = j ∧ i' ∈ rows.map (normRow A.nrows) then 1 else A.entry i' j')
  | [], A, A', happ => by
    injection happ with happ
    subst happ
    refine ⟨rfl, rfl, by simp, ?_⟩
    intro i' j'
    rw [if_neg (by simp)]
  | r :: rest, A, A', happ => by
    simp only [applyRows] at happ
    rcases hset : A.setEntry r j 1 with e | A1
    · rw [hset] at happ
      exact absurd happ (by simp)
    · rw [hset] at happ
      obtain ⟨hnr, hnc, hentries, hlo, hhi, hj⟩ := setEntry_ok_spec hset
      obtain ⟨hnr', hnc', hbounds, hentry⟩ := applyRows_ok_spec happ
      refine ⟨hnr'.trans hnr, hnc'.trans hnc, ?_, ?_⟩
      · intro s hs
        rcases List.mem_cons.mp hs with hs | hs
        · subst hs
          exact ⟨hlo, hhi, hj⟩
        · have := hbounds s hs
          rw [hnr, hnc] at this
          exact this
      · intro i' j'
        rw [hentry i' j', hnr]
        have hA1 : A1.entry i' j' = if i' = normRow A.nrows r ∧ j' = j then 1 else A.entry i' j' := by
          have : A1 = { A with entries := (normRow A.nrows r, j, 1) :: A.entries } := by
            rcases A1 with ⟨a, b, c⟩
            simp only [SpMat.mk.injEq]
            exact ⟨hnr, hnc, hentries⟩
          rw [this, SpMat.entry_push]
        rw [hA1]
        by_cases hc : j' = j
        · subst hc
          by_cases hmem : i' ∈ rest.map (normRow A.nrows)
          · rw [if_pos ⟨rfl, by simp [hmem]⟩, if_pos ⟨rfl, by simp; right; simpa using hmem⟩]
          · rw [if_neg (by simp [hmem])]
            by_cases hr : i' = normRow A.nrows r
            · rw [if_pos ⟨hr, rfl⟩, if_pos ⟨rfl, by simp [hr]⟩]
            · rw [if_neg (by simp [hr]), if_neg ?_]
              simp only [List.map_cons, List.mem_cons, not_or]
              intro hcontra
              rcases hcontra.2 with h1 | h2
              · exact hr h1
              · exact hmem (by simpa using h2)
        · rw [if_neg (by simp [hc]), if_neg (by simp [hc]), if_neg (by simp [hc])]

theorem applyRows_ok_of_bounds {j : Nat} :
    ∀ (rows : List Int) (A : SpMat),
      (∀ r ∈ rows, -(A.nrows : Int) ≤ r ∧ r < (A.nrows : Int)) → j < A.ncols →
      ∃ A', applyRows j A rows = .ok A'
  | [], A, _, _ => ⟨A, rfl⟩
  | r :: rest, A, hb, hj => by
    obtain ⟨A1, hA1⟩ := setEntry_ok_of_bounds (M := A) (i := r) (j := j) 1
      (hb r (by simp)).1 (hb r (by simp)).2 hj
    obtain ⟨hnr, hnc, _, _⟩ := setEntry_ok_spec hA1
    obtain ⟨A', hA'⟩ := applyRows_ok_of_bounds rest A1
      (by rw [hnr]; intro s hs; exact hb s (by simp [hs])) (by rw [hnc]; exact hj)
    refine ⟨A', ?_⟩
    simp only [applyRows]
    rw [hA1]
    exact hA'

theorem applyRows_error_of_bad {j : Nat} :
    ∀ {rows : List Int} (A : SpMat) (r : Int), r ∈ rows →
      (r < -(A.nrows : Int) ∨ (A.nrows : Int) ≤ r ∨ A.ncols ≤ j) →
      applyRows j A rows = .error .indexOutOfRange
  | [], _, _, hmem, _ => absurd hmem (by simp)
  | s :: rest, A, r, hmem, hbad => by
    simp only [applyRows]
    rcases hset : A.setEntry s j 1 with e | A1
    · have : e = BuildError.indexOutOfRange := by
        unfold SpMat.setEntry at hset
        split at hset
        · exact absurd hset (by simp)
        · split at hset
          · exact absurd hset (by simp)
          · injection hset with h
            exact h.symm
      rw [this]
    · obtain ⟨hnr, hnc, _, _, _, _⟩ := setEntry_ok_spec hset
      rcases List.mem_cons.mp hmem with hs | hs
      · subst hs
        obtain ⟨_, _, _, hlo, hhi, hj⟩ := setEntry_ok_spec hset
        omega
      · exact applyRows_error_of_bad A1 r hs (by rw [hnr, hnc]; exact hbad)

theorem buildLoop_ok_dims {N : Nat} :
    ∀ {hyps : List PyHypothesis} {counter : Nat} {A : SpMat} {rho : List ℚ}
      {A' : SpMat} {rho' : List ℚ},
      buildLoop N counter A rho hyps = .ok (A', rho') →
      A'.nrows = A.nrows ∧ A'.ncols = A.ncols ∧ rho'.length = rho.length
  | [], counter, A, rho, A', rho', hb => by
    simp only [buildLoop] at hb
    injection hb with hb
    cases hb
    exact ⟨rfl, rfl, rfl⟩
  | h :: rest, counter, A, rho, A', rho', hb => by
    simp only [buildLoop] at hb
    split at hb
    · exact absurd hb (by simp)
    · split at hb
      · exact absurd hb (by simp)
      · rename_i rows hrows A1 happ
        obtain ⟨hnr, hnc, _, _⟩ := applyRows_ok_spec happ
        obtain ⟨h1, h2, h3⟩ := buildLoop_ok_dims hb
        exact ⟨h1.trans hnr, h2.trans hnc, h3.trans (by simp)⟩

theorem buildLoop_ok_untouched {N : Nat} :
    ∀ {hyps : List PyHypothesis} {counter : Nat} {A : SpMat} {rho : List ℚ}
      {A' : SpMat} {rho' : List ℚ},
      buildLoop N counter A rho hyps = .ok (A', rho') →
      (∀ i j, (j < counter ∨ counter + hyps.length ≤ j) → A'.entry i j = A.entry i j) ∧
      (∀ m, m < counter → rho'.getD m 0 = rho.getD m 0)
  | [], counter, A, rho, A', rho', hb => by
    simp only [buildLoop] at hb
    injection hb with hb
    cases hb
    exact ⟨fun _ _ _ => rfl, fun _ _ => rfl⟩
  | h :: rest, counter, A, rho, A', rho', hb => by
    simp only [buildLoop] at hb
    split at hb
    · exact absurd hb (by simp)
    · split at hb
      · exact absurd hb (by simp)
      · rename_i rows hrows A1 happ
        obtain ⟨hnr, hnc, _, hentry⟩ := applyRows_ok_spec happ
        obtain ⟨ihA, ihrho⟩ := buildLoop_ok_untouched hb
        constructor
        · intro i j hj
          simp only [List.length_cons] at hj
          have hstep : A'.entry i j = A1.entry i j := by
            apply ihA
            omega
          rw [hstep, hentry i j, if_neg]
          rintro ⟨hjc, -⟩
          omega
        · intro m hm
          have hstep : rho'.getD m 0 = (rho.set counter h.log_likelihood).getD m 0 :=
            ihrho m (by omega)
          rw [hstep]
          simp only [List.getD_eq_getElem?_getD]
          rw [List.getElem?_set_ne (by omega)]

theorem buildLoop_ok_col {N : Nat} :
    ∀ {hyps : List PyHypothesis} {counter : Nat} {A : SpMat} {rho : List ℚ}
      {A' : SpMat} {rho' : List ℚ},
      buildLoop N counter A rho hyps = .ok (A', rho') →
      ∀ (k : Nat) (h : PyHypothesis), hyps[k]? = some h →
      ∃ rows, hypothesisRows N h = some rows ∧
        (∀ r ∈ rows, -(A.nrows : Int) ≤ r ∧ r < (A.nrows : Int)) ∧
        (∀ i, A'.entry i (counter + k) =
          if i ∈ rows.map (normRow A.nrows) then 1 else A.entry i (counter + k))
  | [], counter, A, rho, A', rho', hb, k, h, hk => by
    simp at hk
  | h0 :: rest, counter, A, rho, A', rho', hb, k, h, hk => by
    rcases hrows0 : hypothesisRows N h0 with _ | rows0
    · simp only [buildLoop, hrows0] at hb
      exact absurd hb (by simp)
    · rcases happ : applyRows counter A rows0 with e | A1
      · simp only [buildLoop, hrows0, happ] at hb
        exact absurd hb (by simp)
      · simp only [buildLoop, hrows0, happ] at hb
        obtain ⟨hnr, hnc, hbounds, hentry⟩ := applyRows_ok_spec happ
        match k, hk with
        | 0, hk =>
          rw [List.getElem?_cons_zero] at hk
          injection hk with hk
          subst hk
          refine ⟨rows0, hrows0, fun r hr => ⟨(hbounds r hr).1, (hbounds r hr).2.1⟩, ?_⟩
          intro i
          have huntouched : A'.entry i counter = A1.entry i counter :=
            (buildLoop_ok_untouched hb).1 i counter (by omega)
          rw [Nat.add_zero, huntouched, hentry i counter]
          by_cases hmem : i ∈ rows0.map (normRow A.nrows)
          · rw [if_pos ⟨rfl, hmem⟩, if_pos hmem]
          · rw [if_neg (by simp [hmem]), if_neg hmem]
        | k + 1, hk =>
          rw [List.getElem?_cons_succ] at hk
          obtain ⟨rows, hrows, hbnd, hcol⟩ := buildLoop_ok_col hb k h hk
          refine ⟨rows, hrows, ?_, ?_⟩
          · intro r hr
            have hr2 := hbnd r hr
            rw [hnr] at hr2
            exact hr2
          · intro i
            rw [show counter + (k + 1) = counter + 1 + k from by omega]
            rw [hcol i, hnr]
            have hA1 : A1.entry i (counter + 1 + k) = A.entry i (counter + 1 + k) := by
              rw [hentry i (counter + 1 + k), if_neg]
              rintro ⟨hc, -⟩
              omega
            rw [hA1]

theorem buildLoop_ok_rho {N : Nat} :
    ∀ {hyps : List PyHypothesis} {counter : Nat} {A : SpMat} {rho : List ℚ}
      {A' : SpMat} {rho' : List ℚ},
      buildLoop N counter A rho hyps = .ok (A', rho') →
      ∀ (k : Nat) (h : PyHypothesis), hyps[k]? = some h → counter + k < rho.length →
      rho'.getD (counter + k) 0 = h.log_likelihood
  | [], counter, A, rho, A', rho', hb, k, h, hk, hlen => by
    simp at hk
  | h0 :: rest, counter, A, rho, A', rho', hb, k, h, hk, hlen => by
    rcases hrows0 : hypothesisRows N h0 with _ | rows0
    · simp only [buildLoop, hrows0] at hb
      exact absurd hb (by simp)
    · rcases happ : applyRows counter A rows0 with e | A1
      · simp only [buildLoop, hrows0, happ] at hb
        exact absurd hb (by simp)
      · simp only [buildLoop, hrows0, happ] at hb
        match k, hk with
        | 0, hk =>
          rw [List.getElem?_cons_zero] at hk
          injection hk with hk
          obtain rfl := hk
          have huntouched : rho'.getD counter 0 =
              (rho.set counter h0.log_likelihood).getD counter 0 :=
            (buildLoop_ok_untouched hb).2 counter (by omega)
          rw [Nat.add_zero, huntouched]
          simp only [List.getD_eq_getElem?_getD]
          rw [List.getElem?_set_self (by omega)]
          rfl
        | k + 1, hk =>
          rw [List.getElem?_cons_succ] at hk
          rw [show counter + (k + 1) = counter + 1 + k from by omega]
          exact buildLoop_ok_rho hb k h hk (by simp; omega)

theorem buildLoop_ok_of_inRange {N : Nat} :
    ∀ (hyps : List PyHypothesis) (counter : Nat) (A : SpMat) (rho : List ℚ),
      (∀ h ∈ hyps, ∃ rows, hypothesisRows N h = some rows ∧
        ∀ r ∈ rows, -(A.nrows : Int) ≤ r ∧ r < (A.nrows : Int)) →
      counter + hyps.length ≤ A.ncols →
      ∃ res, buildLoop N counter A rho hyps = .ok res
  | [], counter, A, rho, _, _ => ⟨(A, rho), rfl⟩
  | h0 :: rest, counter, A, rho, hin, hcols => by
    obtain ⟨rows0, hrows0, hbnd⟩ := hin h0 (by simp)
    obtain ⟨A1, happ⟩ := applyRows_ok_of_bounds (j := counter) rows0 A hbnd
      (by simp only [List.length_cons] at hcols; omega)
    obtain ⟨hnr, hnc, _, _⟩ := applyRows_ok_spec happ
    obtain ⟨res, hres⟩ := buildLoop_ok_of_inRange rest (counter + 1) A1
      (rho.set counter h0.log_likelihood)
      (by
        intro h hh
        obtain ⟨rows, hrows, hb2⟩ := hin h (by simp [hh])
        exact ⟨rows, hrows, by rw [hnr]; exact hb2⟩)
      (by rw [hnc]; simp only [List.length_cons] at hcols; omega)
    refine ⟨res, ?_⟩
    simp only [buildLoop, hrows0, happ]
    exact hres

theorem buildLoop_not_ok_of_unknown {N : Nat} {hyps : List PyHypothesis}
    {counter : Nat} {A : SpMat} {rho : List ℚ} {h : PyHypothesis}
    (hmem : h ∈ hyps) (hunk : hypothesisRows N h = none) :
    ∃ e, buildLoop N counter A rho hyps = .error e := by
  rcases hres : buildLoop N counter A rho hyps with e | ⟨A', rho'⟩
  · exact ⟨e, rfl⟩
  · obtain ⟨k, hk⟩ := List.getElem?_of_mem hmem
    obtain ⟨rows, hrows, -, -⟩ := buildLoop_ok_col hres k h hk
    rw [hunk] at hrows
    exact absurd hrows (by simp)

theorem buildLoop_not_ok_of_badRow {N : Nat} {hyps : List PyHypothesis}
    {counter : Nat} {A : SpMat} {rho : List ℚ} {h : PyHypothesis} {rows : List Int}
    {r : Int} (hmem : h ∈ hyps) (hrows : hypothesisRows N h = some rows)
    (hr : r ∈ rows) (hbad : r < -(A.nrows : Int) ∨ (A.nrows : Int) ≤ r) :
    ∃ e, buildLoop N counter A rho hyps = .error e := by
  rcases hres : buildLoop N counter A rho hyps with e | ⟨A', rho'⟩
  · exact ⟨e, rfl⟩
  · obtain ⟨k, hk⟩ := List.getElem?_of_mem hmem
    obtain ⟨rows2, hrows2, hbnd, -⟩ := buildLoop_ok_col hres k h hk
    rw [hrows] at hrows2
    injection hrows2 with hrows2
    subst hrows2
    have := hbnd r hr
    omega

theorem buildLoop_unknownType {N : Nat} :
    ∀ (hyps : List PyHypothesis) (counter : Nat) (A : SpMat) (rho : List ℚ),
      (∀ h ∈ hyps, ∀ rows, hypothesisRows N h = some rows →
        ∀ r ∈ rows, -(A.nrows : Int) ≤ r ∧ r < (A.nrows : Int)) →
      counter + hyps.length ≤ A.ncols →
      (∃ h ∈ hyps, hypothesisRows N h = none) →
      buildLoop N counter A rho hyps = .error .unknownType
  | [], counter, A, rho, _, _, hunk => by
    obtain ⟨h, hmem, -⟩ := hunk
    simp at hmem
  | h0 :: rest, counter, A, rho, hin, hcols, hunk => by
    rcases hrows0 : hypothesisRows N h0 with _ | rows0
    · simp only [buildLoop, hrows0]
    · obtain ⟨A1, happ⟩ := applyRows_ok_of_bounds (j := counter) rows0 A
        (hin h0 (by simp) rows0 hrows0)
        (by simp only [List.length_cons] at hcols; omega)
      obtain ⟨hnr, hnc, _, _⟩ := applyRows_ok_spec happ
      have hrest : buildLoop N (counter + 1) A1 (rho.set counter h0.log_likelihood) rest
          = .error .unknownType := by
        apply buildLoop_unknownType rest (counter + 1) A1 (rho.set counter h0.log_likelihood)
        · intro h hh rows hrows
          rw [hnr]
          exact hin h (by simp [hh]) rows hrows
        · rw [hnc]
          simp only [List.length_cons] at hcols
          omega
        · obtain ⟨h, hmem, hnone⟩ := hunk
          rcases List.mem_cons.mp hmem with rfl | hmem2
          · rw [hrows0] at hnone
            exact absurd hnone (by simp)
          · exact ⟨h, hmem2, hnone⟩
      simp only [buildLoop, hrows0]
      rw [happ]
      exact hrest

theorem poolN_ge {hyps : List PyHypothesis} {h : PyHypothesis} (hmem : h ∈ hyps) :
    h.ID ≤ poolN hyps := by
  unfold poolN
  induction hyps with
  | nil => simp at hmem
  | cons h0 rest ih =>
    rcases List.mem_cons.mp hmem with rfl | hmem2
    · simp only [List.map_cons, List.foldr_cons]
      omega
    · simp only [List.map_cons, List.foldr_cons]
      have := ih hmem2
      omega

theorem poolN_attained {hyps : List PyHypothesis} (hne : hyps ≠ []) :
    ∃ h ∈ hyps, h.ID = poolN hyps := by
  unfold poolN
  induction hyps with
  | nil => exact absurd rfl hne
  | cons h0 rest ih =>
    rcases Decidable.em (rest = []) with rfl | hne2
    · exact ⟨h0, by simp, by simp⟩
    · obtain ⟨h, hmem, hmax⟩ := ih hne2
      simp only [List.map_cons, List.foldr_cons]
      rcases Nat.le_total h0.ID ((rest.map (fun h => h.ID)).foldr max 0) with hle | hle
      · refine ⟨h, by simp [hmem], ?_⟩
        rw [hmax]
        omega
      · refine ⟨h0, by simp, ?_⟩
        omega

theorem buildConstraints_ok_elim {hyps : List PyHypothesis} {p : BuiltProblem}
    (hb : buildConstraints hyps = .ok p) :
    ∃ A rho,
      buildLoop (poolN hyps) 0 (SpMat.mk (2 * poolN hyps) hyps.length [])
        (List.replicate hyps.length 0) hyps = .ok (A, rho) ∧
      p = BuiltProblem.mk (poolN hyps) hyps.length A rho := by
  simp only [buildConstraints] at hb
  split at hb
  · exact absurd hb (by simp)
  · rcases hloop : buildLoop (poolN hyps) 0 (SpMat.mk (2 * poolN hyps) hyps.length [])
        (List.replicate hyps.length 0) hyps with e | ⟨A, rho⟩
    · rw [hloop] at hb
      exact absurd hb (by simp)
    · rw [hloop] at hb
      injection hb with hb
      exact ⟨A, rho, rfl, hb.symm⟩

theorem buildConstraints_ok_spec {hyps : List PyHypothesis} {p : BuiltProblem}
    (hb : buildConstraints hyps = .ok p) :
    p.N = poolN hyps ∧ p.n_hypotheses = hyps.length ∧
    p.A.nrows = 2 * poolN hyps ∧ p.A.ncols = hyps.length ∧ p.rho.length = hyps.length := by
  obtain ⟨A, rho, hloop, rfl⟩ := buildConstraints_ok_elim hb
  obtain ⟨h1, h2, h3⟩ := buildLoop_ok_dims hloop
  exact ⟨rfl, rfl, h1, h2, by simpa using h3⟩

theorem buildConstraints_ok_col {hyps : List PyHypothesis} {p : BuiltProblem}
    (hb : buildConstraints hyps = .ok p) (k : Nat) (h : PyHypothesis)
    (hk : hyps[k]? = some h) :
    ∃ rows, hypothesisRows (poolN hyps) h = some rows ∧
      (∀ r ∈ rows, -(2 * poolN hyps : Int) ≤ r ∧ r < (2 * poolN hyps : Int)) ∧
      (∀ i, p.A.entry i k = if i ∈ rows.map (normRow (2 * poolN hyps)) then 1 else 0) := by
  obtain ⟨A, rho, hloop, rfl⟩ := buildConstraints_ok_elim hb
  obtain ⟨rows, hrows, hbnd, hcol⟩ := buildLoop_ok_col hloop k h hk
  refine ⟨rows, hrows, hbnd, ?_⟩
  intro i
  have := hcol i
  rw [Nat.zero_add] at this
  rw [this, SpMat.entry_nil]

theorem buildConstraints_ok_rho {hyps : List PyHypothesis} {p : BuiltProblem}
    (hb : buildConstraints hyps = .ok p) (k : Nat) (h : PyHypothesis)
    (hk : hyps[k]? = some h) :
    p.rho.getD k 0 = h.log_likelihood := by
  obtain ⟨A, rho, hloop, rfl⟩ := buildConstraints_ok_elim hb
  have hlt : k < hyps.length := by
    rcases List.getElem?_eq_some.mp hk with ⟨hlt, -⟩
    exact hlt
  have := buildLoop_ok_rho hloop k h hk (by simp; omega)
  rw [Nat.zero_add] at this
  exact this

theorem buildConstraints_ok_recognised {hyps : List PyHypothesis} {p : BuiltProblem}
    (hb : buildConstraints hyps = .ok p) :
    ∀ h ∈ hyps, hypothesisRows (poolN hyps) h ≠ none := by
  intro h hmem
  obtain ⟨k, hk⟩ := List.getElem?_of_mem hmem
  obtain ⟨rows, hrows, -, -⟩ := buildConstraints_ok_col hb k h hk
  rw [hrows]
  simp

theorem buildConstraints_ok_of_inRange {hyps : List PyHypothesis} (hne : hyps ≠ [])
    (hin : ∀ h ∈ hyps, ∃ rows, hypothesisRows (poolN hyps) h = some rows ∧
      ∀ r ∈ rows, -(2 * poolN hyps : Int) ≤ r ∧ r < (2 * poolN hyps : Int)) :
    ∃ p, buildConstraints hyps = .ok p := by
  obtain ⟨res, hres⟩ := buildLoop_ok_of_inRange (N := poolN hyps) hyps 0
    (SpMat.mk (2 * poolN hyps) hyps.length []) (List.replicate hyps.length 0) hin
    (by simp)
  rcases res with ⟨A, rho⟩
  refine ⟨BuiltProblem.mk (poolN hyps) hyps.length A rho, ?_⟩
  simp only [buildConstraints]
  rw [if_neg (by simpa using hne)]
  rw [hres]

theorem buildConstraints_error_of_unknown {hyps : List PyHypothesis} {h : PyHypothesis}
    (hmem : h ∈ hyps) (hunk : hypothesisRows (poolN hyps) h = none) :
    ∃ e, buildConstraints hyps = .error e := by
  rcases hres : buildConstraints hyps with e | p
  · exact ⟨e, rfl⟩
  · exact absurd hunk (buildConstraints_ok_recognised hres h hmem)

theorem buildConstraints_unknownType {hyps : List PyHypothesis}
    (hin : ∀ h ∈ hyps, ∀ rows, hypothesisRows (poolN hyps) h = some rows →
      ∀ r ∈ rows, -(2 * poolN hyps : Int) ≤ r ∧ r < (2 * poolN hyps : Int))
    (hunk : ∃ h ∈ hyps, hypothesisRows (poolN hyps) h = none) :
    buildConstraints hyps = .error .unknownType := by
  have hne : hyps ≠ [] := by
    obtain ⟨h, hmem, -⟩ := hunk
    intro hcontra
    subst hcontra
    simp at hmem
  have hloop := buildLoop_unknownType hyps 0
    (SpMat.mk (2 * poolN hyps) hyps.length [])
    (List.replicate hyps.length 0) hin (by simp) hunk
  simp only [buildConstraints]
  rw [if_neg (by simpa using hne)]
  rw [hloop]

theorem buildConstraints_error_of_badRow {hyps : List PyHypothesis} {h : PyHypothesis}
    {rows : List Int} {r : Int} (hmem : h ∈ hyps)
    (hrows : hypothesisRows (poolN hyps) h = some rows) (hr : r ∈ rows)
    (hbad : r < -(2 * poolN hyps : Int) ∨ (2 * poolN hyps : Int) ≤ r) :
    ∃ e, buildConstraints hyps = .error e := by
  rcases hres : buildConstraints hyps with e | p
  · exact ⟨e, rfl⟩
  · obtain ⟨k, hk⟩ := List.getElem?_of_mem hmem
    obtain ⟨rows2, hrows2, hbnd, -⟩ := buildConstraints_ok_col hres k h hk
    rw [hrows] at hrows2
    injection hrows2 with hrows2
    subst hrows2
    have := hbnd r hr
    omega

theorem setEntry_entries_bound {M M' : SpMat} {i : Int} {j : Nat} {v : ℚ}
    (hs : M.setEntry i j v = .ok M')
    (hM : ∀ e ∈ M.entries, e.1 < M.nrows ∧ e.2.1 < M.ncols) :
    ∀ e ∈ M'.entries, e.1 < M'.nrows ∧ e.2.1 < M'.ncols := by
  obtain ⟨hnr, hnc, hentries, hlo, hhi, hj⟩ := setEntry_ok_spec hs
  rw [hentries, hnr, hnc]
  intro e he
  rcases List.mem_cons.mp he with rfl | he2
  · exact ⟨normRow_lt hlo hhi, hj⟩
  · exact hM e he2

theorem applyRows_entries_bound {j : Nat} :
    ∀ {rows : List Int} {A A' : SpMat}, applyRows j A rows = .ok A' →
      (∀ e ∈ A.entries, e.1 < A.nrows ∧ e.2.1 < A.ncols) →
      ∀ e ∈ A'.entries, e.1 < A'.nrows ∧ e.2.1 < A'.ncols
  | [], A, A', happ, hA => by
    injection happ with happ
    subst happ
    exact hA
  | r :: rest, A, A', happ, hA => by
    simp only [applyRows] at happ
    rcases hset : A.setEntry r j 1 with e | A1
    · rw [hset] at happ
      exact absurd happ (by simp)
    · rw [hset] at happ
      exact applyRows_entries_bound happ (setEntry_entries_bound hset hA)

theorem buildLoop_entries_bound {N : Nat} :
    ∀ {hyps : List PyHypothesis} {counter : Nat} {A : SpMat} {rho : List ℚ}
      {A' : SpMat} {rho' : List ℚ},
      buildLoop N counter A rho hyps = .ok (A', rho') →
      (∀ e ∈ A.entries, e.1 < A.nrows ∧ e.2.1 < A.ncols) →
      ∀ e ∈ A'.entries, e.1 < A'.nrows ∧ e.2.1 < A'.ncols
  | [], counter, A, rho, A', rho', hb, hA => by
    simp only [buildLoop] at hb
    injection hb with hb
    cases hb
    exact hA
  | h0 :: rest, counter, A, rho, A', rho', hb, hA => by
    rcases hrows0 : hypothesisRows N h0 with _ | rows0
    · simp only [buildLoop, hrows0] at hb
      exact absurd hb (by simp)
    · rcases happ : applyRows counter A rows0 with e | A1
      · simp only [buildLoop, hrows0, happ] at hb
        exact absurd hb (by simp)
      · simp only [buildLoop, hrows0, happ] at hb
        exact buildLoop_entries_bound hb (applyRows_entries_bound happ hA)

theorem buildConstraints_entries_bound {hyps : List PyHypothesis} {p : BuiltProblem}
    (hb : buildConstraints hyps = .ok p) :
    ∀ e ∈ p.A.entries, e.1 < 2 * poolN hyps ∧ e.2.1 < hyps.length := by
  obtain ⟨A, rho, hloop, rfl⟩ := buildConstraints_ok_elim hb
  have hall := buildLoop_entries_bound hloop (by intro e he; simp at he)
  obtain ⟨hnr, hnc, -⟩ := buildLoop_ok_dims hloop
  intro e he
  have := hall e he
  rw [hnr, hnc] at this
  exact this

theorem optimise_eq_of_build_ok {solver : ILPInput → String × List ℚ}
    {hyps : List PyHypothesis} {p : BuiltProblem} (hb : buildConstraints hyps = .ok p) :
    optimise solver hyps =
      if (solver (assembleILP p)).1 ≠ "optimal" then
        .ok ([], setupLogs ++ [(LogLevel.warning,
          "Optimizer returned status: " ++ (solver (assembleILP p)).1)])
      else
        .ok ((List.range hyps.length).filter
              (fun i => decide (0 < (solver (assembleILP p)).2.getD i 0)),
          setupLogs ++ [(LogLevel.info,
            "Optimisation complete. (Solution: " ++ (solver (assembleILP p)).1 ++ ")")]) := by
  simp only [optimise]
  rw [hb]

theorem optimise_eq_of_build_error {solver : ILPInput → String × List ℚ}
    {hyps : List PyHypothesis} {e : BuildError} (hb : buildConstraints hyps = .error e) :
    optimise solver hyps = .error e := by
  simp only [optimise]
  rw [hb]

theorem exactSolver_correct : SolverCorrect exactSolver := by
  intro inp
  rcases hmin : (feasibleSelections inp).argmin (objective inp) with _ | sel
  · constructor
    · intro hopt
      simp only [exactSolver, hmin] at hopt
      exact absurd hopt (by decide)
    · intro hnopt
      exact List.argmin_eq_none.mp hmin
  · constructor
    · intro hopt
      refine ⟨sel, List.argmin_mem (Option.mem_def.mpr hmin), ?_, ?_⟩
      · simp only [exactSolver, hmin]
      · intro sel2 hmem2
        exact List.le_of_mem_argmin hmem2 (Option.mem_def.mpr hmin)
    · intro hnopt
      simp only [exactSolver, hmin] at hnopt
      exact absurd rfl hnopt

theorem feasibleSelections_eq_nil_of_zero_row {inp : ILPInput} {r : Nat}
    (hr : r < inp.A.nrows) (hzero : ∀ j, inp.A.entry r j = 0)
    (hbr : inp.b.getD r 0 = 1) :
    feasibleSelections inp = [] := by
  unfold feasibleSelections
  rw [List.filter_eq_nil_iff]
  intro sel hsel
  intro hcheck
  unfold checkFeasible at hcheck
  rw [Bool.and_eq_true] at hcheck
  obtain ⟨hall, -⟩ := hcheck
  have hrcheck := List.all_eq_true.mp hall r (List.mem_range.mpr hr)
  have hrow : rowDot inp.A r sel = inp.b.getD r 0 := by
    simpa using hrcheck
  have hzero2 : rowDot inp.A r sel = 0 := by
    unfold rowDot
    apply List.sum_eq_zero
    intro x hx
    obtain ⟨j, -, rfl⟩ := List.mem_map.mp hx
    rw [hzero j]
    ring
  rw [hzero2, hbr] at hrow
  exact absurd hrow (by norm_num)

theorem optimise_of_infeasible {solver : ILPInput → String × List ℚ}
    (hs : SolverCorrect solver) {hyps : List PyHypothesis} {p : BuiltProblem}
    (hb : buildConstraints hyps = .ok p)
    (hfeas : feasibleSelections (assembleILP p) = []) :
    optimise solver hyps = .ok ([], setupLogs ++ [(LogLevel.warning,
      "Optimizer returned status: " ++ (solver (assembleILP p)).1)]) := by
  have hstat : (solver (assembleILP p)).1 ≠ "optimal" := by
    intro hopt
    obtain ⟨sel, hmem, -⟩ := (hs (assembleILP p)).1 hopt
    rw [hfeas] at hmem
    simp at hmem
  rw [optimise_eq_of_build_ok hb, if_pos hstat]

/-- Scenario B of the spec, exactly as written there: TERMINATE(id=1, ll=-2),
INITIALIZE(id=2, ll=-2), LINK(id=1 to 2, ll=-0.1), in that order. -/
def scenarioB : List PyHypothesis :=
  [{ ID := 1, type := Fates.TERMINATE, log_likelihood := -2 },
   { ID := 2, type := Fates.INITIALISE, log_likelihood := -2 },
   { ID := 1, type := Fates.LINK, log_likelihood := -(1/10), link_ID := 2 }]

/-- Scenario B augmented with the two boundary hypotheses a well-formed pool
must carry (a head event for tracklet 1 and a tail event for tracklet 2),
at the same log-likelihood the spec gives the competing pair. -/
def scenarioBplus : List PyHypothesis :=
  scenarioB ++
  [{ ID := 1, type := Fates.INITIALISE, log_likelihood := -2 },
   { ID := 2, type := Fates.TERMINATE, log_likelihood := -2 }]

/-- A pool whose subject IDs are 1 and 3: the id space has a gap at 2. -/
def gapPool : List PyHypothesis :=
  [{ ID := 1, type := Fates.FALSE_POSITIVE, log_likelihood := 0 },
   { ID := 3, type := Fates.FALSE_POSITIVE, log_likelihood := 0 }]

/-- A pool holding an unrecognised type code behind a LINK whose target
reference exceeds the largest subject ID. -/
def mixedBadPool : List PyHypothesis :=
  [{ ID := 1, type := Fates.LINK, log_likelihood := 0, link_ID := 3 },
   { ID := 2, type := Fates.UNKNOWN, log_likelihood := 0 }]

instance instDecEqExcept {ε α : Type} [DecidableEq ε] [DecidableEq α] :
    DecidableEq (Except ε α)
  | .error e1, .error e2 =>
    if h : e1 = e2 then .isTrue (by rw [h])
    else .isFalse (by intro hc; injection hc with hc; exact h hc)
  | .error e1, .ok a2 => .isFalse (by intro hc; exact Except.noConfusion hc)
  | .ok a1, .error e2 => .isFalse (by intro hc; exact Except.noConfusion hc)
  | .ok a1, .ok a2 =>
    if h : a1 = a2 then .isTrue (by rw [h])
    else .isFalse (by intro hc; injection hc with hc; exact h hc)

theorem normRow_tail {twoN : Nat} {id : Nat} (hid : 1 ≤ id) :
    normRow twoN (trk_idx id) = id - 1 := by
  unfold normRow trk_idx
  rw [if_neg (by omega)]
  omega

theorem normRow_head {twoN N : Nat} {id : Nat} (hid : 1 ≤ id) :
    normRow twoN ((N : Int) + trk_idx id) = N + (id - 1) := by
  unfold normRow trk_idx
  rw [if_neg (by omega)]
  omega

theorem map_normRow_eq_specTableRows {N : Nat} {h : PyHypothesis} {rows : List Int}
    (hrows : hypothesisRows N h = some rows) (hwf : wellFormedIDs h = true) :
    rows.map (normRow (2 * N)) = specTableRows N h := by
  rcases htype : h.type
  all_goals
    simp only [hypothesisRows, htype] at hrows
  case UNKNOWN => exact absurd hrows (by simp)
  all_goals
    injection hrows with hrows
  all_goals
    subst hrows
  all_goals
    simp only [wellFormedIDs, htype, Bool.and_eq_true, decide_eq_true_eq] at hwf
  case FALSE_POSITIVE =>
    simp [specTableRows, htype, normRow_tail hwf.1, normRow_head hwf.1]
  case INITIALISE =>
    simp [specTableRows, htype, normRow_head hwf.1]
  case TERMINATE =>
    simp [specTableRows, htype, normRow_tail hwf.1]
  case APOPTOSIS =>
    simp [specTableRows, htype, normRow_tail hwf.1]
  case LINK =>
    simp [specTableRows, htype, normRow_tail hwf.1, normRow_head hwf.2]
  case DIVIDE =>
    simp [specTableRows, htype, normRow_tail hwf.1, normRow_head hwf.2.1,
      normRow_head hwf.2.2]
  case MERGE =>
    simp [specTableRows, htype, normRow_head hwf.1, normRow_tail hwf.2.1,
      normRow_tail hwf.2.2]

/-- C1: for every hypothesis j in the pool, the constraint-matrix column j
built by optimise has ones exactly at the row positions the section 4.2
table gives for its type (with t = id - 1: FALSE_POSITIVE at t and N+t;
INITIALIZE at N+t only; TERMINATE at t; APOPTOSIS at t; LINK at source t
and N+target; DIVIDE at t, N+child_one, N+child_two; MERGE at N+t,
parent_one, parent_two) and zeros everywhere else, for all seven types
(IDs and the references the type reads being 1-based). -/
theorem C1_column_pattern {hyps : List PyHypothesis} {p : BuiltProblem}
    (hb : buildConstraints hyps = .ok p)
    (hwf : ∀ h ∈ hyps, wellFormedIDs h = true)
    (j : Nat) (h : PyHypothesis) (hj : hyps[j]? = some h) (i : Nat) :
    p.A.entry i j = if i ∈ specTableRows p.N h then 1 else 0 := by
  obtain ⟨hN, -, -, -, -⟩ := buildConstraints_ok_spec hb
  obtain ⟨rows, hrows, hbnd, hcol⟩ := buildConstraints_ok_col hb j h hj
  have hmem : h ∈ hyps := by
    have := List.getElem?_eq_some.mp hj
    obtain ⟨hlt, rfl⟩ := this
    exact List.getElem_mem hlt
  have hmap := map_normRow_eq_specTableRows hrows (hwf h hmem)
  rw [hN, hcol i, hmap]

/-- C1 witness: the column patterns at a concrete two-hypothesis pool. -/
theorem C1_column_pattern_witness :
    (∀ h ∈ gapPool, wellFormedIDs h = true) ∧
    ∃ p, buildConstraints gapPool = .ok p ∧
      (p.A.entry 0 0 = 1 ∧ p.A.entry 3 0 = 1 ∧ p.A.entry 2 0 = 0 ∧
       p.A.entry 2 1 = 1 ∧ p.A.entry 5 1 = 1 ∧ p.A.entry 0 1 = 0) := by
  have hb : buildConstraints gapPool = .ok (BuiltProblem.mk 3 2
      (SpMat.mk 6 2 [(5, 1, 1), (2, 1, 1), (3, 0, 1), (0, 0, 1)]) [0, 0]) := rfl
  have hwf : ∀ h ∈ gapPool, wellFormedIDs h = true := by decide
  refine ⟨hwf, _, hb, ?_, ?_, ?_, ?_, ?_, ?_⟩
  · rw [C1_column_pattern hb hwf 0 _ rfl 0]; decide
  · rw [C1_column_pattern hb hwf 0 _ rfl 3]; decide
  · rw [C1_column_pattern hb hwf 0 _ rfl 2]; decide
  · rw [C1_column_pattern hb hwf 1 _ rfl 2]; decide
  · rw [C1_column_pattern hb hwf 1 _ rfl 5]; decide
  · rw [C1_column_pattern hb hwf 1 _ rfl 0]; decide

theorem getD_replicate {n i : Nat} {a d : ℚ} :
    (List.replicate n a).getD i d = if i < n then a else d := by
  simp only [List.getD_eq_getElem?_getD, List.getElem?_replicate]
  split <;> rfl

theorem rowDot_zero_of_entries_nil {M : SpMat} (hM : M.entries = []) (i : Nat)
    (sel : List Bool) : rowDot M i sel = 0 := by
  unfold rowDot
  apply List.sum_eq_zero
  intro x hx
  obtain ⟨j, -, rfl⟩ := List.mem_map.mp hx
  unfold SpMat.entry
  rw [hM]
  simp [List.find?]

/-- C2: the program handed to the solver is exactly the minimisation of
cost . x with cost j = -log_likelihood j, subject to A x = b with x binary
for all n variables; the inequality block G is identically zero (so
G x <= h excludes nothing), the integer set I is empty and the binary set
B is all of 0..n-1. -/
theorem C2_program_shape {hyps : List PyHypothesis} {p : BuiltProblem}
    (hb : buildConstraints hyps = .ok p) :
    ((assembleILP p).c.length = hyps.length ∧
     ∀ (j : Nat) (h : PyHypothesis), hyps[j]? = some h →
       (assembleILP p).c.getD j 0 = -h.log_likelihood) ∧
    ((∀ i j, (assembleILP p).G.entry i j = 0) ∧
     ∀ sel i, rowDot (assembleILP p).G i sel ≤ (assembleILP p).hvec.getD i 0) ∧
    ((assembleILP p).b.length = 2 * p.N ∧
     ∀ i, i < 2 * p.N → (assembleILP p).b.getD i 0 = 1) ∧
    (assembleILP p).I = ∅ ∧
    (assembleILP p).B = Finset.range hyps.length := by
  obtain ⟨hN, hn, hnr, hnc, hrho⟩ := buildConstraints_ok_spec hb
  refine ⟨⟨?_, ?_⟩, ⟨?_, ?_⟩, ⟨?_, ?_⟩, ?_, ?_⟩
  · simp [assembleILP, hrho]
  · intro j h hj
    have hr := buildConstraints_ok_rho hb j h hj
    have hlt : j < hyps.length := by
      rcases List.getElem?_eq_some.mp hj with ⟨hlt, -⟩
      exact hlt
    simp only [assembleILP]
    simp only [List.getD_eq_getElem?_getD, List.getElem?_map]
    rw [List.getD_eq_getElem?_getD] at hr
    rcases hget : p.rho[j]? with _ | v
    · rw [hget] at hr
      simp only [List.getElem?_eq_none_iff] at hget
      omega
    · rw [hget] at hr
      simp at hr
      simp [hr]
  · intro i j
    simp only [assembleILP, SpMat.neg]
    unfold SpMat.entry
    simp [List.find?]
  · intro sel i
    rw [rowDot_zero_of_entries_nil (by simp [assembleILP, SpMat.neg]) i sel]
    simp only [assembleILP]
    rw [getD_replicate]
    split <;> norm_num
  · simp [assembleILP]
  · intro i hi
    simp only [assembleILP]
    rw [getD_replicate, if_pos hi]
  · rfl
  · simp only [assembleILP]
    rw [hn]

/-- C2 witness: the assembled program at a concrete pool. -/
theorem C2_program_shape_witness :
    ((assembleILP (BuiltProblem.mk 3 2
        (SpMat.mk 6 2 [(5, 1, 1), (2, 1, 1), (3, 0, 1), (0, 0, 1)]) [0, 0])).c.length
       = gapPool.length ∧
     ∀ (j : Nat) (h : PyHypothesis), gapPool[j]? = some h →
       (assembleILP (BuiltProblem.mk 3 2
         (SpMat.mk 6 2 [(5, 1, 1), (2, 1, 1), (3, 0, 1), (0, 0, 1)]) [0, 0])).c.getD j 0
         = -h.log_likelihood) ∧
    ((∀ i j, (assembleILP (BuiltProblem.mk 3 2
        (SpMat.mk 6 2 [(5, 1, 1), (2, 1, 1), (3, 0, 1), (0, 0, 1)]) [0, 0])).G.entry i j = 0) ∧
     ∀ sel i, rowDot (assembleILP (BuiltProblem.mk 3 2
        (SpMat.mk 6 2 [(5, 1, 1), (2, 1, 1), (3, 0, 1), (0, 0, 1)]) [0, 0])).G i sel ≤
       (assembleILP (BuiltProblem.mk 3 2
        (SpMat.mk 6 2 [(5, 1, 1), (2, 1, 1), (3, 0, 1), (0, 0, 1)]) [0, 0])).hvec.getD i 0) ∧
    ((assembleILP (BuiltProblem.mk 3 2
        (SpMat.mk 6 2 [(5, 1, 1), (2, 1, 1), (3, 0, 1), (0, 0, 1)]) [0, 0])).b.length = 2 * 3 ∧
     ∀ i, i < 2 * 3 → (assembleILP (BuiltProblem.mk 3 2
        (SpMat.mk 6 2 [(5, 1, 1), (2, 1, 1), (3, 0, 1), (0, 0, 1)]) [0, 0])).b.getD i 0 = 1) ∧
    (assembleILP (BuiltProblem.mk 3 2
        (SpMat.mk 6 2 [(5, 1, 1), (2, 1, 1), (3, 0, 1), (0, 0, 1)]) [0, 0])).I = ∅ ∧
    (assembleILP (BuiltProblem.mk 3 2
        (SpMat.mk 6 2 [(5, 1, 1), (2, 1, 1), (3, 0, 1), (0, 0, 1)]) [0, 0])).B =
      Finset.range gapPool.length :=
  C2_program_shape rfl

/-- C3: for every non-empty pool that builds, N is max(id) over the pool
(an attained upper bound of the subject IDs), the constraint matrix has
shape (2N, n) and b is the all-ones vector of length 2N; nothing validates
that the id space 1..N is dense (the witness pool has a gap at id 2 and
still builds). -/
theorem C3_shape {hyps : List PyHypothesis} {p : BuiltProblem}
    (hne : hyps ≠ []) (hb : buildConstraints hyps = .ok p) :
    ((∀ h ∈ hyps, h.ID ≤ p.N) ∧ (∃ h ∈ hyps, h.ID = p.N)) ∧
    p.A.nrows = 2 * p.N ∧ p.A.ncols = hyps.length ∧
    (assembleILP p).b.length = 2 * p.N ∧
    (∀ i, i < 2 * p.N → (assembleILP p).b.getD i 0 = 1) := by
  obtain ⟨hN, hn, hnr, hnc, -⟩ := buildConstraints_ok_spec hb
  refine ⟨⟨?_, ?_⟩, ?_, ?_, ?_, ?_⟩
  · intro h hmem
    rw [hN]
    exact poolN_ge hmem
  · rw [hN]
    exact poolN_attained hne
  · rw [hN]
    exact hnr
  · exact hnc
  · simp [assembleILP]
  · intro i hi
    simp only [assembleILP]
    rw [getD_replicate, if_pos hi]

/-- C3 witness: a pool with subject IDs 1 and 3 (gap at 2) still builds,
with N = 3, A of shape (6, 2) and b the all-ones vector of length 6. -/
theorem C3_shape_witness :
    gapPool ≠ [] ∧
    ((∀ h ∈ gapPool, h.ID ≤ 3) ∧ (∃ h ∈ gapPool, h.ID = 3)) ∧
    (SpMat.mk 6 2 [(5, 1, 1), (2, 1, 1), (3, 0, 1), (0, 0, 1)]).nrows = 2 * 3 ∧
    (SpMat.mk 6 2 [(5, 1, 1), (2, 1, 1), (3, 0, 1), (0, 0, 1)]).ncols = gapPool.length ∧
    (assembleILP (BuiltProblem.mk 3 2
      (SpMat.mk 6 2 [(5, 1, 1), (2, 1, 1), (3, 0, 1), (0, 0, 1)]) [0, 0])).b.length = 2 * 3 ∧
    (∀ i, i < 2 * 3 → (assembleILP (BuiltProblem.mk 3 2
      (SpMat.mk 6 2 [(5, 1, 1), (2, 1, 1), (3, 0, 1), (0, 0, 1)]) [0, 0])).b.getD i 0 = 1) :=
  ⟨by decide, @C3_shape gapPool (BuiltProblem.mk 3 2
    (SpMat.mk 6 2 [(5, 1, 1), (2, 1, 1), (3, 0, 1), (0, 0, 1)]) [0, 0]) (by decide) rfl⟩

/-- C4: whenever the solver reports any status other than optimal on a pool
that built, optimise returns the empty selection (no exception, no partial
result) and the emitted log carries exactly one warning-level record. -/
theorem C4_nonoptimal {solver : ILPInput → String × List ℚ}
    {hyps : List PyHypothesis} {p : BuiltProblem}
    (hb : buildConstraints hyps = .ok p)
    (hstat : (solver (assembleILP p)).1 ≠ "optimal") :
    ∃ logs, optimise solver hyps = .ok ([], logs) ∧
      (logs.filter (fun e => e.1 == LogLevel.warning)).length = 1 := by
  refine ⟨setupLogs ++ [(LogLevel.warning,
    "Optimizer returned status: " ++ (solver (assembleILP p)).1)], ?_, ?_⟩
  · rw [optimise_eq_of_build_ok hb, if_pos hstat]
  · rfl

/-- C4 witness: a solver stub reporting the GLPK status "unknown" on the
gap pool yields the empty selection with one warning. -/
theorem C4_nonoptimal_witness :
    ∃ logs, optimise (fun _ => ("unknown", [])) gapPool = .ok ([], logs) ∧
      (logs.filter (fun e => e.1 == LogLevel.warning)).length = 1 :=
  @C4_nonoptimal (fun _ => ("unknown", [])) gapPool (BuiltProblem.mk 3 2
    (SpMat.mk 6 2 [(5, 1, 1), (2, 1, 1), (3, 0, 1), (0, 0, 1)]) [0, 0]) rfl (by decide)

theorem hypothesisRows_eq_none_iff {N : Nat} {h : PyHypothesis} :
    hypothesisRows N h = none ↔ h.type = Fates.UNKNOWN := by
  rcases htype : h.type
  all_goals simp [hypothesisRows, htype]

theorem rowsInRange_spec {N twoN : Nat} {h : PyHypothesis} {rows : List Int}
    (hr : rowsInRange N twoN h = true) (hrows : hypothesisRows N h = some rows) :
    ∀ r ∈ rows, 0 ≤ r ∧ r < (twoN : Int) := by
  unfold rowsInRange at hr
  rw [hrows] at hr
  intro r hmem
  have := List.all_eq_true.mp hr r hmem
  simp only [Bool.and_eq_true, decide_eq_true_eq] at this
  exact this

/-- C5 counterexample: a pool that contains an unrecognised type code but
whose first hypothesis is a LINK with an out-of-range target reference
makes optimise fail with the cvxopt IndexError, not with the ValueError of
the unknown-type branch, for whatever solver is plugged in. -/
theorem C5_counterexample :
    (∃ h ∈ mixedBadPool, h.type = Fates.UNKNOWN) ∧
    optimise exactSolver mixedBadPool = .error BuildError.indexOutOfRange ∧
    optimise exactSolver mixedBadPool ≠ .error BuildError.unknownType := by
  refine ⟨by decide, rfl, ?_⟩
  intro hcontra
  have h2 := (show Except.error BuildError.indexOutOfRange
    = optimise exactSolver mixedBadPool from rfl).trans hcontra
  injection h2 with h2
  exact absurd h2 (by decide)

/-- C5 (amended): a pool containing a hypothesis with an unrecognised type
code always makes optimise fail during the matrix-build phase — for every
solver, so the solver is never consulted and no selection is returned —
and the error is precisely the unknown-type ValueError whenever every
hypothesis of the pool assigns only rows inside [0, 2N) (an out-of-range
assignment in an earlier hypothesis raises IndexError first instead). -/
theorem C5_unknown_type_error (solver : ILPInput → String × List ℚ)
    {hyps : List PyHypothesis} (hunk : ∃ h ∈ hyps, h.type = Fates.UNKNOWN) :
    (∃ e, optimise solver hyps = .error e) ∧
    ((∀ h ∈ hyps, rowsInRange (poolN hyps) (2 * poolN hyps) h = true) →
      optimise solver hyps = .error BuildError.unknownType) := by
  obtain ⟨h, hmem, htype⟩ := hunk
  have hnone : hypothesisRows (poolN hyps) h = none :=
    hypothesisRows_eq_none_iff.mpr htype
  constructor
  · obtain ⟨e, hberr⟩ := buildConstraints_error_of_unknown hmem hnone
    exact ⟨e, optimise_eq_of_build_error hberr⟩
  · intro hin
    have hberr : buildConstraints hyps = .error .unknownType := by
      apply buildConstraints_unknownType
      · intro h2 hmem2 rows2 hrows2 r hr
        have := rowsInRange_spec (hin h2 hmem2) hrows2 r hr
        omega
      · exact ⟨h, hmem, hnone⟩
    exact optimise_eq_of_build_error hberr

/-- C5 witness: a pool of one in-range TERMINATE followed by an
unrecognised type code fails with the unknown-type ValueError. -/
theorem C5_unknown_type_error_witness :
    (∃ e, optimise exactSolver
      [{ ID := 1, type := Fates.TERMINATE, log_likelihood := 0 },
       { ID := 1, type := Fates.UNKNOWN, log_likelihood := 0 }] = .error e) ∧
    ((∀ h ∈ [{ ID := 1, type := Fates.TERMINATE, log_likelihood := 0 },
       ({ ID := 1, type := Fates.UNKNOWN, log_likelihood := 0 } : PyHypothesis)],
        rowsInRange (poolN [{ ID := 1, type := Fates.TERMINATE, log_likelihood := 0 },
          { ID := 1, type := Fates.UNKNOWN, log_likelihood := 0 }])
          (2 * poolN [{ ID := 1, type := Fates.TERMINATE, log_likelihood := 0 },
            { ID := 1, type := Fates.UNKNOWN, log_likelihood := 0 }]) h = true) →
      optimise exactSolver
        [{ ID := 1, type := Fates.TERMINATE, log_likelihood := 0 },
         { ID := 1, type := Fates.UNKNOWN, log_likelihood := 0 }]
        = .error BuildError.unknownType) :=
  C5_unknown_type_error exactSolver (by decide)

/-- C6: on an optimal solver status, optimise returns exactly the indices j
with x j strictly positive (any positive value counts as selected, not only
the value one), listed in increasing order of the original hypothesis
indices. -/
theorem C6_selection {solver : ILPInput → String × List ℚ}
    {hyps : List PyHypothesis} {p : BuiltProblem}
    (hb : buildConstraints hyps = .ok p)
    (hstat : (solver (assembleILP p)).1 = "optimal") :
    ∃ results logs, optimise solver hyps = .ok (results, logs) ∧
      List.Sorted (· < ·) results ∧
      ∀ i : Nat, i ∈ results ↔
        (i < hyps.length ∧ 0 < (solver (assembleILP p)).2.getD i 0) := by
  refine ⟨(List.range hyps.length).filter
      (fun i => decide (0 < (solver (assembleILP p)).2.getD i 0)),
    setupLogs ++ [(LogLevel.info,
      "Optimisation complete. (Solution: " ++ (solver (assembleILP p)).1 ++ ")")],
    ?_, ?_, ?_⟩
  · rw [optimise_eq_of_build_ok hb, if_neg (by simp [hstat])]
  · exact List.Pairwise.filter _ (List.pairwise_lt_range hyps.length)
  · intro i
    simp [List.mem_filter, List.mem_range]

/-- C6 witness: a solver returning the fractional value one half for the
single variable still gets index 0 selected. -/
theorem C6_selection_witness :
    ∃ results logs, optimise (fun _ => ("optimal", [1/2]))
        [{ ID := 1, type := Fates.FALSE_POSITIVE, log_likelihood := 0 }]
      = .ok (results, logs) ∧
      List.Sorted (· < ·) results ∧
      ∀ i : Nat, i ∈ results ↔ (i < 1 ∧ 0 < ([(1:ℚ)/2]).getD i 0) :=
  @C6_selection (fun _ => ("optimal", [1/2]))
    [{ ID := 1, type := Fates.FALSE_POSITIVE, log_likelihood := 0 }]
    (BuiltProblem.mk 1 1 (SpMat.mk 2 1 [(1, 0, 1), (0, 0, 1)]) [0]) rfl rfl

/-- C8: optimise is deterministic; two runs on equal pools build equal
constraint data, assemble equal solver inputs and return equal results
(for any fixed solver function). -/
theorem C8_deterministic (solver : ILPInput → String × List ℚ)
    (hyps1 hyps2 : List PyHypothesis) (heq : hyps1 = hyps2) :
    buildConstraints hyps1 = buildConstraints hyps2 ∧
    (buildConstraints hyps1).map assembleILP = (buildConstraints hyps2).map assembleILP ∧
    optimise solver hyps1 = optimise solver hyps2 := by
  subst heq
  exact ⟨rfl, rfl, rfl⟩

/-- C8 witness: the two runs on the scenario B pool agree. -/
theorem C8_deterministic_witness :
    buildConstraints scenarioB = buildConstraints scenarioB ∧
    (buildConstraints scenarioB).map assembleILP
      = (buildConstraints scenarioB).map assembleILP ∧
    optimise exactSolver scenarioB = optimise exactSolver scenarioB :=
  C8_deterministic exactSolver scenarioB scenarioB rfl

theorem mem_of_idx {α : Type} {l : List α} {k : Nat} {a : α}
    (h : l[k]? = some a) : a ∈ l := by
  obtain ⟨hlt, rfl⟩ := List.getElem?_eq_some.mp h
  exact List.getElem_mem hlt

theorem SpMat.entry_eq_zero_of_no_write {M : SpMat} {i j : Nat}
    (h : ∀ e ∈ M.entries, ¬(e.1 = i ∧ e.2.1 = j)) : M.entry i j = 0 := by
  unfold SpMat.entry
  rw [List.find?_eq_none.mpr]
  intro e he
  simp only [Bool.and_eq_true, beq_iff_eq]
  intro hc
  exact h e he ⟨hc.1, hc.2⟩

/-- The problem the build phase produces from the gap pool. -/
def gapBuilt : BuiltProblem :=
  BuiltProblem.mk 3 2 (SpMat.mk 6 2 [(5, 1, 1), (2, 1, 1), (3, 0, 1), (0, 0, 1)]) [0, 0]

/-- C9: when some row r below 2N receives no entry from any hypothesis's
encoding (for instance the tail or head slot of an id-space gap), the
built system carries an all-zero row equated to 1, the binary program has
no feasible point, and optimise returns the empty selection without
raising, for every correct solver. -/
theorem C9_uncovered_row {solver : ILPInput → String × List ℚ}
    (hs : SolverCorrect solver) {hyps : List PyHypothesis} {p : BuiltProblem}
    (hb : buildConstraints hyps = .ok p) (r : Nat) (hr : r < 2 * p.N)
    (huncov : ∀ h ∈ hyps, ∀ rows, hypothesisRows p.N h = some rows →
      r ∉ rows.map (normRow (2 * p.N))) :
    ((∀ j, p.A.entry r j = 0) ∧ (assembleILP p).b.getD r 0 = 1) ∧
    feasibleSelections (assembleILP p) = [] ∧
    ∃ logs, optimise solver hyps = .ok ([], logs) := by
  obtain ⟨hN, hn, hnr, hnc, -⟩ := buildConstraints_ok_spec hb
  have hzero : ∀ j, p.A.entry r j = 0 := by
    intro j
    rcases hget : hyps[j]? with _ | h
    · apply SpMat.entry_eq_zero_of_no_write
      intro e he hc
      have hbnd := buildConstraints_entries_bound hb e he
      simp only [List.getElem?_eq_none_iff] at hget
      omega
    · obtain ⟨rows, hrows, -, hcol⟩ := buildConstraints_ok_col hb j h hget
      rw [hcol r, if_neg]
      rw [← hN] at hrows
      rw [← hN]
      exact huncov h (mem_of_idx hget) rows hrows
  have hb1 : (assembleILP p).b.getD r 0 = 1 := by
    simp only [assembleILP]
    rw [getD_replicate, if_pos hr]
  have hfeas : feasibleSelections (assembleILP p) = [] := by
    apply feasibleSelections_eq_nil_of_zero_row (r := r)
    · show r < p.A.nrows
      omega
    · exact hzero
    · exact hb1
  exact ⟨⟨hzero, hb1⟩, hfeas,
    ⟨_, optimise_of_infeasible hs hb hfeas⟩⟩

/-- C9 witness: the gap pool (IDs 1 and 3) leaves row 1 — the tail slot of
the missing tracklet 2 — all zero; the program is infeasible and the
selection empty. -/
theorem C9_uncovered_row_witness :
    ((∀ j, gapBuilt.A.entry 1 j = 0) ∧ (assembleILP gapBuilt).b.getD 1 0 = 1) ∧
    feasibleSelections (assembleILP gapBuilt) = [] ∧
    ∃ logs, optimise exactSolver gapPool = .ok ([], logs) := by
  apply C9_uncovered_row exactSolver_correct
    (rfl : buildConstraints gapPool = Except.ok gapBuilt) 1 (by decide)
  intro h hmem rows hrows
  rcases List.mem_cons.mp hmem with rfl | hmem2
  · injection (show some ([0, 3] : List Int) = some rows from hrows) with h3
    subst h3
    decide
  · rcases List.mem_cons.mp hmem2 with rfl | hmem3
    · injection (show some ([2, 5] : List Int) = some rows from hrows) with h3
      subst h3
      decide
    · simp at hmem3

/-- The problem the build phase produces from the scenario B pool. -/
def scenarioBBuilt : BuiltProblem :=
  BuiltProblem.mk 2 3 (SpMat.mk 4 3 [(3, 2, 1), (0, 2, 1), (3, 1, 1), (0, 0, 1)])
    [-2, -2, -(1/10)]

/-- The problem the build phase produces from the augmented scenario B
pool. -/
def scenarioBplusBuilt : BuiltProblem :=
  BuiltProblem.mk 2 5
    (SpMat.mk 4 5 [(1, 4, 1), (2, 3, 1), (3, 2, 1), (0, 2, 1), (3, 1, 1), (0, 0, 1)])
    [-2, -2, -(1/10), -2, -2]

/-- C7 counterexample: on the exact scenario B pool of the spec —
TERMINATE(1, -2), INITIALIZE(2, -2), LINK(1 to 2, -0.1) and nothing else —
the built program has no feasible binary point (nothing covers the head
slot of tracklet 1 or the tail slot of tracklet 2), so the solver reports
infeasibility and optimise selects nothing, not the LINK hypothesis. -/
theorem C7_counterexample :
    feasibleSelections (assembleILP scenarioBBuilt) = [] ∧
    (optimise exactSolver scenarioB).map (fun res => res.1) = .ok [] ∧
    (optimise exactSolver scenarioB).map (fun res => res.1) ≠ .ok [2] := by
  refine ⟨by with_unfolding_all decide, ?_, by with_unfolding_all decide⟩
  rw [optimise_eq_of_build_ok
    (show buildConstraints scenarioB = Except.ok scenarioBBuilt from rfl)]
  rw [if_pos (by with_unfolding_all decide)]
  rfl

/-- C7 (amended): once the pool is completed with the two boundary
hypotheses feasibility requires — INITIALIZE(id=1) and TERMINATE(id=2),
both at log-likelihood -2 — every correct solver makes optimise select the
LINK hypothesis (index 2) together with those two boundary events (indices
3 and 4), and not the TERMINATE(1)/INITIALIZE(2) pair (indices 0 and 1). -/
theorem C7_link_preferred {solver : ILPInput → String × List ℚ}
    (hs : SolverCorrect solver) :
    (optimise solver scenarioBplus).map (fun res => res.1) = .ok [2, 3, 4] := by
  have hb : buildConstraints scenarioBplus = .ok scenarioBplusBuilt := rfl
  have hfeas : feasibleSelections (assembleILP scenarioBplusBuilt) =
      [[true, true, false, true, true], [false, false, true, true, true]] := by
    with_unfolding_all decide
  by_cases hstat : (solver (assembleILP scenarioBplusBuilt)).1 = "optimal"
  · obtain ⟨sel, hmem, hx, hmin⟩ := (hs (assembleILP scenarioBplusBuilt)).1 hstat
    rw [hfeas] at hmem
    rcases List.mem_cons.mp hmem with rfl | hmem2
    · have hcmp := hmin [false, false, true, true, true] (by rw [hfeas]; simp)
      exact absurd hcmp (by with_unfolding_all decide)
    · rcases List.mem_cons.mp hmem2 with rfl | hmem3
      · rw [optimise_eq_of_build_ok hb, if_neg (by simp [hstat]), hx]
        simp only [Except.map]
        with_unfolding_all decide
      · simp at hmem3
  · have := (hs (assembleILP scenarioBplusBuilt)).2 hstat
    rw [hfeas] at this
    exact absurd this (by simp)

/-- C7 witness: the reference solver realises the amended selection. -/
theorem C7_link_preferred_witness :
    (optimise exactSolver scenarioBplus).map (fun res => res.1) = .ok [2, 3, 4] :=
  C7_link_preferred exactSolver_correct

/-- Per the precondition of the safety claim: every auxiliary reference the
hypothesis type reads is at most N. -/
def auxRefsLe (N : Nat) (h : PyHypothesis) : Bool :=
  match h.type with
  | Fates.LINK => h.link_ID ≤ N
  | Fates.DIVIDE => h.child_one_ID ≤ N && h.child_two_ID ≤ N
  | Fates.MERGE => h.parent_one_ID ≤ N && h.parent_two_ID ≤ N
  | _ => true

theorem hypothesisRows_in_range {N : Nat} {h : PyHypothesis}
    (htype : h.type ≠ Fates.UNKNOWN) (hwf : wellFormedIDs h = true)
    (hid : h.ID ≤ N) (href : auxRefsLe N h = true) :
    ∃ rows, hypothesisRows N h = some rows ∧
      ∀ r ∈ rows, 0 ≤ r ∧ r < (2 * N : Int) := by
  rcases ht : h.type
  case UNKNOWN => exact absurd ht htype
  all_goals
    simp only [wellFormedIDs, ht, Bool.and_eq_true, decide_eq_true_eq] at hwf
  all_goals
    simp only [auxRefsLe, ht, Bool.and_eq_true, decide_eq_true_eq] at href
  case FALSE_POSITIVE =>
    refine ⟨[trk_idx h.ID, (N : Int) + trk_idx h.ID], by simp [hypothesisRows, ht], ?_⟩
    intro r hr
    simp only [List.mem_cons, List.not_mem_nil, or_false] at hr
    rcases hr with rfl | rfl <;> (unfold trk_idx; omega)
  case INITIALISE =>
    refine ⟨[(N : Int) + trk_idx h.ID], by simp [hypothesisRows, ht], ?_⟩
    intro r hr
    simp only [List.mem_cons, List.not_mem_nil, or_false] at hr
    rcases hr with rfl
    unfold trk_idx
    omega
  case TERMINATE =>
    refine ⟨[trk_idx h.ID], by simp [hypothesisRows, ht], ?_⟩
    intro r hr
    simp only [List.mem_cons, List.not_mem_nil, or_false] at hr
    rcases hr with rfl
    unfold trk_idx
    omega
  case APOPTOSIS =>
    refine ⟨[trk_idx h.ID], by simp [hypothesisRows, ht], ?_⟩
    intro r hr
    simp only [List.mem_cons, List.not_mem_nil, or_false] at hr
    rcases hr with rfl
    unfold trk_idx
    omega
  case LINK =>
    refine ⟨[trk_idx h.ID, (N : Int) + trk_idx h.link_ID],
      by simp [hypothesisRows, ht], ?_⟩
    intro r hr
    simp only [List.mem_cons, List.not_mem_nil, or_false] at hr
    rcases hr with rfl | rfl <;> (unfold trk_idx; omega)
  case DIVIDE =>
    refine ⟨[trk_idx h.ID, (N : Int) + trk_idx h.child_one_ID,
      (N : Int) + trk_idx h.child_two_ID], by simp [hypothesisRows, ht], ?_⟩
    intro r hr
    simp only [List.mem_cons, List.not_mem_nil, or_false] at hr
    rcases hr with rfl | rfl | rfl <;> (unfold trk_idx; omega)
  case MERGE =>
    refine ⟨[(N : Int) + trk_idx h.ID, trk_idx h.parent_one_ID,
      trk_idx h.parent_two_ID], by simp [hypothesisRows, ht], ?_⟩
    intro r hr
    simp only [List.mem_cons, List.not_mem_nil, or_false] at hr
    rcases hr with rfl | rfl | rfl <;> (unfold trk_idx; omega)

/-- A LINK or DIVIDE hypothesis one of whose auxiliary references exceeds
N: its head-slot assignment row N + ref - 1 falls at or beyond row 2N. -/
def badHeadRef (N : Nat) (h : PyHypothesis) : Bool :=
  match h.type with
  | Fates.LINK => N < h.link_ID
  | Fates.DIVIDE => N < h.child_one_ID || N < h.child_two_ID
  | _ => false

/-- A MERGE hypothesis one of whose parent references exceeds 2N: its
tail-slot assignment row ref - 1 falls at or beyond row 2N.  (A parent
reference in (N, 2N] stays in range, because MERGE parents are written
into tail rows, at ref - 1 and not at N + ref - 1.) -/
def badMergeRef (N : Nat) (h : PyHypothesis) : Bool :=
  match h.type with
  | Fates.MERGE => 2 * N < h.parent_one_ID || 2 * N < h.parent_two_ID
  | _ => false

theorem bad_ref_gives_bad_row {N : Nat} {h : PyHypothesis}
    (hbad : badHeadRef N h = true ∨ badMergeRef N h = true) :
    ∃ rows, hypothesisRows N h = some rows ∧ ∃ r ∈ rows, (2 * N : Int) ≤ r := by
  rcases ht : h.type
  all_goals
    simp only [badHeadRef, badMergeRef, ht, or_self] at hbad
  case FALSE_POSITIVE => exact absurd hbad (by simp)
  case INITIALISE => exact absurd hbad (by simp)
  case TERMINATE => exact absurd hbad (by simp)
  case APOPTOSIS => exact absurd hbad (by simp)
  case UNKNOWN => exact absurd hbad (by simp)
  case LINK =>
    replace hbad : N < h.link_ID := by
      rcases hbad with hbad | hbad
      · simpa using hbad
      · exact absurd hbad (by simp)
    refine ⟨[trk_idx h.ID, (N : Int) + trk_idx h.link_ID],
      by simp [hypothesisRows, ht], (N : Int) + trk_idx h.link_ID, by simp, ?_⟩
    unfold trk_idx
    omega
  case DIVIDE =>
    replace hbad : N < h.child_one_ID ∨ N < h.child_two_ID := by
      rcases hbad with hbad | hbad
      · simpa using hbad
      · exact absurd hbad (by simp)
    rcases hbad with hbad | hbad
    · refine ⟨[trk_idx h.ID, (N : Int) + trk_idx h.child_one_ID,
        (N : Int) + trk_idx h.child_two_ID], by simp [hypothesisRows, ht],
        (N : Int) + trk_idx h.child_one_ID, by simp, ?_⟩
      unfold trk_idx
      omega
    · refine ⟨[trk_idx h.ID, (N : Int) + trk_idx h.child_one_ID,
        (N : Int) + trk_idx h.child_two_ID], by simp [hypothesisRows, ht],
        (N : Int) + trk_idx h.child_two_ID, by simp, ?_⟩
      unfold trk_idx
      omega
  case MERGE =>
    replace hbad : 2 * N < h.parent_one_ID ∨ 2 * N < h.parent_two_ID := by
      rcases hbad with hbad | hbad
      · exact absurd hbad (by simp)
      · simpa using hbad
    rcases hbad with hbad | hbad
    · refine ⟨[(N : Int) + trk_idx h.ID, trk_idx h.parent_one_ID,
        trk_idx h.parent_two_ID], by simp [hypothesisRows, ht],
        trk_idx h.parent_one_ID, by simp, ?_⟩
      unfold trk_idx
      omega
    · refine ⟨[(N : Int) + trk_idx h.ID, trk_idx h.parent_one_ID,
        trk_idx h.parent_two_ID], by simp [hypothesisRows, ht],
        trk_idx h.parent_two_ID, by simp, ?_⟩
      unfold trk_idx
      omega

/-- One MERGE hypothesis whose parent references exceed the largest subject
id without exceeding 2N. -/
def mergeOverPool : List PyHypothesis :=
  [{ ID := 1, type := Fates.MERGE, log_likelihood := 0,
     parent_one_ID := 2, parent_two_ID := 2 }]

/-- C10 counterexample: in this pool a MERGE hypothesis has parent
references (= 2) exceeding the largest subject id (= 1), yet the build
completes with no error and no out-of-range assignment: MERGE parent
references are written into tail rows at ref - 1 (= 1 < 2N), not at
N + ref - 1 as the claim asserts. -/
theorem C10_counterexample :
    (∃ h ∈ mergeOverPool, badAuxRef (poolN mergeOverPool) h = true) ∧
    buildConstraints mergeOverPool = .ok (BuiltProblem.mk 1 1
      (SpMat.mk 2 1 [(1, 0, 1), (1, 0, 1), (1, 0, 1)]) [0]) ∧
    (∀ e : BuildError, buildConstraints mergeOverPool ≠ .error e) := by
  refine ⟨by decide, rfl, ?_⟩
  intro e hcontra
  exact Except.noConfusion ((show (Except.ok (BuiltProblem.mk 1 1
    (SpMat.mk 2 1 [(1, 0, 1), (1, 0, 1), (1, 0, 1)]) [0])
      : Except BuildError BuiltProblem)
    = buildConstraints mergeOverPool from rfl).trans hcontra)

/-- C10 (amended): N is computed only from the subject id fields; under the
precondition that ids are 1-based and auxiliary references are 1-based and
at most N, the build succeeds and every row index written into A lies in
[0, 2N); without the precondition, a LINK or DIVIDE auxiliary reference
above N (head row N + ref - 1 at or beyond 2N), or a MERGE parent
reference above 2N (tail row ref - 1 at or beyond 2N), makes the build
fail before any solver call. -/
theorem C10_index_safety :
    (∀ hyps1 hyps2 : List PyHypothesis,
      hyps1.map (fun h => h.ID) = hyps2.map (fun h => h.ID) →
      poolN hyps1 = poolN hyps2) ∧
    (∀ hyps : List PyHypothesis, hyps ≠ [] →
      (∀ h ∈ hyps, h.type ≠ Fates.UNKNOWN ∧ wellFormedIDs h = true ∧
        auxRefsLe (poolN hyps) h = true) →
      ∃ p, buildConstraints hyps = .ok p ∧ ∀ e ∈ p.A.entries, e.1 < 2 * p.N) ∧
    (∀ (solver : ILPInput → String × List ℚ) (hyps : List PyHypothesis)
      (h : PyHypothesis), h ∈ hyps →
      (badHeadRef (poolN hyps) h = true ∨ badMergeRef (poolN hyps) h = true) →
      ∃ e, optimise solver hyps = .error e) := by
  refine ⟨?_, ?_, ?_⟩
  · intro hyps1 hyps2 heq
    unfold poolN
    rw [heq]
  · intro hyps hne hpre
    have hin : ∀ h ∈ hyps, ∃ rows, hypothesisRows (poolN hyps) h = some rows ∧
        ∀ r ∈ rows, -(2 * poolN hyps : Int) ≤ r ∧ r < (2 * poolN hyps : Int) := by
      intro h hmem
      obtain ⟨htype, hwf, href⟩ := hpre h hmem
      obtain ⟨rows, hrows, hbnd⟩ :=
        hypothesisRows_in_range htype hwf (poolN_ge hmem) href
      refine ⟨rows, hrows, ?_⟩
      intro r hr
      have := hbnd r hr
      omega
    obtain ⟨p, hb⟩ := buildConstraints_ok_of_inRange hne hin
    refine ⟨p, hb, ?_⟩
    intro e he
    have hbound := buildConstraints_entries_bound hb e he
    have hN := (buildConstraints_ok_spec hb).1
    omega
  · intro solver hyps h hmem hbad
    obtain ⟨rows, hrows, r, hr, hge⟩ := bad_ref_gives_bad_row hbad
    obtain ⟨e, hberr⟩ := buildConstraints_error_of_badRow hmem hrows hr (Or.inr hge)
    exact ⟨e, optimise_eq_of_build_error hberr⟩

/-- C10 witness: the three parts at concrete pools — two pools sharing the
id sequence share N; the well-formed gap pool builds with all written rows
below 2N; a LINK whose target (3) exceeds N (1) makes optimise fail. -/
theorem C10_index_safety_witness :
    poolN gapPool = poolN
      [{ ID := 1, type := Fates.TERMINATE, log_likelihood := -1 },
       { ID := 3, type := Fates.TERMINATE, log_likelihood := -1 }] ∧
    (∃ p, buildConstraints gapPool = .ok p ∧ ∀ e ∈ p.A.entries, e.1 < 2 * p.N) ∧
    (∃ e, optimise exactSolver
      [{ ID := 1, type := Fates.LINK, log_likelihood := 0, link_ID := 3 }]
      = .error e) :=
  ⟨C10_index_safety.1 gapPool
    [{ ID := 1, type := Fates.TERMINATE, log_likelihood := -1 },
     { ID := 3, type := Fates.TERMINATE, log_likelihood := -1 }] rfl,
   C10_index_safety.2.1 gapPool (by decide) (by decide),
   C10_index_safety.2.2 exactSolver
     [{ ID := 1, type := Fates.LINK, log_likelihood := 0, link_ID := 3 }]
     { ID := 1, type := Fates.LINK, log_likelihood := 0, link_ID := 3 }
     (by decide) (by decide)⟩
